import Mathlib

/-!
Shallow embedding of the flashcard tool's core (`src/quzi.py`): the sqlite
store built by `init_db`, the `Model` repository methods, the JSON
import/export, and the `StudyWindow` session engine, together with proofs of
the specification's claims about them.

Modelling conventions:
* sqlite tables are lists of rows in rowid order (`INTEGER PRIMARY KEY` makes
  `id` the rowid, and sqlite hands out `max(id) + 1` as the next rowid, so an
  insert appends at the end).
* UTC timestamps are natural numbers (ticks of the clock); `isoUTC` stands for
  `datetime.now(timezone.utc).isoformat()`s rendering of one.  Each operation
  that reads the clock takes the current instant as an explicit argument.
* Nullable TEXT columns are `Option String`; Python exceptions are the
  `PyError` error type of `Except`; file reading plus `json.load` is modelled
  by its outcome (`ReadJson`).
-/

namespace Quzi

/-- A row of the `decks` table: `decks(id, name, created_at)`. -/
structure DeckRow where
  id : Nat
  name : String
  created_at : Nat
deriving Repr, DecidableEq

/-- A row of the `cards` table:
`cards(id, deck_id, front, back, correct_count, seen_count, created_at)`;
`front` and `back` are nullable, the two counters carry `DEFAULT 0`.
The schema declares `FOREIGN KEY(deck_id) REFERENCES decks(id) ON DELETE
CASCADE`, but the connection never issues `PRAGMA foreign_keys = ON`, so
sqlite parses the clause and enforces nothing. -/
structure CardRow where
  id : Nat
  deck_id : Nat
  front : Option String
  back : Option String
  correct_count : Nat
  seen_count : Nat
  created_at : Nat
deriving Repr, DecidableEq

/-- The store `init_db` creates: the two tables, each as its list of rows in
rowid order. -/
structure DB where
  decks : List DeckRow
  cards : List CardRow
deriving Repr, DecidableEq

/-- The freshly created, empty store. -/
def emptyDB : DB := { decks := [], cards := [] }

/-- Rendering of a clock instant, standing for the ISO-8601 text
`datetime.now(timezone.utc).isoformat()` produces. -/
def isoUTC (ts : Nat) : String := toString ts

/-- The largest deck id in use (0 on an empty table): sqlite assigns
`deckMaxId db + 1` as the next rowid. -/
def deckMaxId (db : DB) : Nat := db.decks.foldr (fun r m => max r.id m) 0

/-- The largest card id in use (0 on an empty table). -/
def cardMaxId (db : DB) : Nat := db.cards.foldr (fun r m => max r.id m) 0

/-- `Model.add_deck`: `INSERT INTO decks (name, created_at) VALUES (?, ?)`
with the current instant; returns the updated store and `lastrowid`. -/
def add_deck (db : DB) (name : String) (ts : Nat) : DB × Nat :=
  let i := deckMaxId db + 1
  ({ db with decks := db.decks ++ [{ id := i, name := name, created_at := ts }] }, i)

/-- `Model.rename_deck`: `UPDATE decks SET name=? WHERE id=?`. -/
def rename_deck (db : DB) (deck_id : Nat) (new_name : String) : DB :=
  { db with decks := db.decks.map (fun r =>
      if r.id == deck_id then { r with name := new_name } else r) }

/-- `Model.delete_deck`: `DELETE FROM cards WHERE deck_id=?` then
`DELETE FROM decks WHERE id=?`, committed as one unit (a single
`conn.commit()` after both statements). -/
def delete_deck (db : DB) (deck_id : Nat) : DB :=
  { decks := db.decks.filter (fun r => ! (r.id == deck_id)),
    cards := db.cards.filter (fun r => ! (r.deck_id == deck_id)) }

/-- Insertion step of `ORDER BY id` (ascending). -/
def insertById (r : CardRow) : List CardRow → List CardRow
  | [] => [r]
  | x :: xs => if r.id ≤ x.id then r :: x :: xs else x :: insertById r xs

/-- `ORDER BY id` on a list of card rows (insertion sort, ascending). -/
def orderById : List CardRow → List CardRow
  | [] => []
  | x :: xs => insertById x (orderById xs)

/-- `Model.cards_in_deck`: `SELECT id, front, back, correct_count, seen_count
FROM cards WHERE deck_id=? ORDER BY id`. -/
def cards_in_deck (db : DB) (deck_id : Nat) :
    List (Nat × Option String × Option String × Nat × Nat) :=
  (orderById (db.cards.filter (fun r => r.deck_id == deck_id))).map
    (fun r => (r.id, r.front, r.back, r.correct_count, r.seen_count))

/-- `Model.add_card`: `INSERT INTO cards (deck_id, front, back, created_at)
VALUES (?, ?, ?, ?)`; the two counters take their `DEFAULT 0`; returns the
updated store and `lastrowid`.  No check that `deck_id` names a deck. -/
def add_card (db : DB) (deck_id : Nat) (front back : Option String) (ts : Nat) :
    DB × Nat :=
  let i := cardMaxId db + 1
  ({ db with cards := db.cards ++
      [{ id := i, deck_id := deck_id, front := front, back := back,
         correct_count := 0, seen_count := 0, created_at := ts }] }, i)

/-- `Model.update_card`: `UPDATE cards SET front=?, back=? WHERE id=?`. -/
def update_card (db : DB) (card_id : Nat) (front back : Option String) : DB :=
  { db with cards := db.cards.map (fun r =>
      if r.id == card_id then { r with front := front, back := back } else r) }

/-- `Model.delete_card`: `DELETE FROM cards WHERE id=?`. -/
def delete_card (db : DB) (card_id : Nat) : DB :=
  { db with cards := db.cards.filter (fun r => ! (r.id == card_id)) }

/-- `Model.record_result`: one `UPDATE` that bumps `seen_count` always and
`correct_count` too when `correct`, on every row matching `id=?` (zero rows
when the id is absent — sqlite raises nothing then). -/
def record_result (db : DB) (card_id : Nat) (correct : Bool) : DB :=
  { db with cards := db.cards.map (fun r =>
      if r.id == card_id then
        if correct then
          { r with correct_count := r.correct_count + 1, seen_count := r.seen_count + 1 }
        else
          { r with seen_count := r.seen_count + 1 }
      else r) }

/-! JSON values, as `json.load` hands them to the import code. `obj` models
the parsed Python dict: an association list of its distinct keys in order. -/

inductive Json where
  | null
  | bool (b : Bool)
  | num (n : Int)
  | str (s : String)
  | arr (items : List Json)
  | obj (fields : List (String × Json))
deriving Repr

/-- The Python exceptions the embedded code can raise. -/
inductive PyError where
  | valueError       -- `raise ValueError('Deck not found')`
  | ioError          -- `open(path)` fails
  | jsonDecodeError  -- `json.load` on text that is not JSON
  | attributeError   -- `.get` on a value that is not a dict
  | typeError        -- `for ... in` over a non-iterable
  | interfaceError   -- sqlite3 cannot bind a list/dict as a parameter
  | integrityError   -- a NOT NULL column receives NULL
deriving Repr, DecidableEq

/-- A nullable TEXT column value as JSON (`json.dump` writes `None` as
`null`). -/
def optJson : Option String → Json
  | none => Json.null
  | some s => Json.str s

/-- One element of the exported `cards` array:
`dict(front=r[0], back=r[1], correct_count=r[2], seen_count=r[3], created_at=r[4])`. -/
def cardJson (r : CardRow) : Json :=
  Json.obj [("front", optJson r.front), ("back", optJson r.back),
    ("correct_count", Json.num (Int.ofNat r.correct_count)),
    ("seen_count", Json.num (Int.ofNat r.seen_count)),
    ("created_at", Json.str (isoUTC r.created_at))]

/-- The exported payload:
`dict(name=deck_name, exported_at=..., cards=cards)`. -/
def exportPayload (name : String) (ts : Nat) (rows : List CardRow) : Json :=
  Json.obj [("name", Json.str name), ("exported_at", Json.str (isoUTC ts)),
    ("cards", Json.arr (rows.map cardJson))]

/-- `Model.export_deck_json`: `SELECT name FROM decks WHERE id=?` (`fetchone`,
i.e. the first matching row), raising `ValueError('Deck not found')` when
there is none; then `SELECT front, back, correct_count, seen_count,
created_at FROM cards WHERE deck_id=?` — note: without ORDER BY, so in table
(rowid) order — and `json.dump` of the payload.  The file write is modelled
by returning the payload it serializes. -/
def export_deck_json (db : DB) (deck_id : Nat) (ts : Nat) : Except PyError Json :=
  match db.decks.find? (fun r => r.id == deck_id) with
  | none => Except.error PyError.valueError
  | some dk =>
    Except.ok (exportPayload dk.name ts (db.cards.filter (fun r => r.deck_id == deck_id)))

/-- `payload.get(key)` / `payload.get(key, default)` lookup part: the value
stored at the key, if any. -/
def objGet? (fields : List (String × Json)) (k : String) : Option Json :=
  (fields.find? (fun kv => kv.1 == k)).map (fun kv => kv.2)

/-- Python truthiness of a parsed JSON value (`payload.get('name') or ...`). -/
def pyTruthy : Json → Bool
  | Json.null => false
  | Json.bool b => b
  | Json.num n => n != 0
  | Json.str s => s != ""
  | Json.arr items => ! items.isEmpty
  | Json.obj fields => ! fields.isEmpty

/-- Binding a parsed JSON value as an sqlite parameter of a TEXT column:
`None` binds NULL, a string binds itself, ints and bools bind numerically and
TEXT affinity renders them as text; a list or dict cannot be bound
(`sqlite3.InterfaceError`). -/
def bindText : Json → Except PyError (Option String)
  | Json.null => Except.ok none
  | Json.str s => Except.ok (some s)
  | Json.num n => Except.ok (some (toString n))
  | Json.bool b => Except.ok (some (if b then "1" else "0"))
  | Json.arr _ => Except.error PyError.interfaceError
  | Json.obj _ => Except.error PyError.interfaceError

/-- `iter(x)` as the `for card in payload.get('cards', [])` loop uses it:
a list yields its items, a string its characters, a dict its keys; anything
else raises `TypeError`. -/
def pyIter : Json → Except PyError (List Json)
  | Json.arr items => Except.ok items
  | Json.str s => Except.ok (s.toList.map (fun c => Json.str (String.mk [c])))
  | Json.obj fields => Except.ok (fields.map (fun kv => Json.str kv.1))
  | _ => Except.error PyError.typeError

/-- `card.get('front', '')`: only a dict has `.get` (`AttributeError`
otherwise); the default applies only when the key is absent — a key held at
`null` yields `null`, not the default. -/
def entryGet (entry : Json) (k : String) (dflt : Json) : Except PyError Json :=
  match entry with
  | Json.obj fields => Except.ok ((objGet? fields k).getD dflt)
  | _ => Except.error PyError.attributeError

/-- The outcome of `open(path)` + `json.load(f)` on the import source: the
file may be unreadable (`IOError` out of `open`), hold text that is not valid
JSON (`json.JSONDecodeError`), or parse to a value. -/
inductive ReadJson where
  | ioFailure
  | parseFailure
  | parsed (payload : Json)
deriving Repr

/-- The deck name `import_deck_json` synthesizes when the payload's `name` is
absent or falsy: `f'Deck {datetime.now(timezone.utc).isoformat()}'`. -/
def synthName (ts : Nat) : String := "Deck " ++ isoUTC ts

/-- The `for card in ...: self.add_card(deck_id, card.get('front',''),
card.get('back',''))` loop.  Each `add_card` commits on its own, so on an
exception the store keeps the deck and every card inserted so far; the
post-loop store is returned alongside the outcome. -/
def importCards (db : DB) (deck_id : Nat) (ts : Nat) :
    List Json → DB × Except PyError Nat
  | [] => (db, Except.ok deck_id)
  | entry :: rest =>
    match entryGet entry "front" (Json.str "") with
    | Except.error e => (db, Except.error e)
    | Except.ok fv =>
      match entryGet entry "back" (Json.str "") with
      | Except.error e => (db, Except.error e)
      | Except.ok bv =>
        match bindText fv with
        | Except.error e => (db, Except.error e)
        | Except.ok f =>
          match bindText bv with
          | Except.error e => (db, Except.error e)
          | Except.ok b => importCards (add_card db deck_id f b ts).1 deck_id ts rest

/-- `Model.import_deck_json`: reads and parses the source, takes
`payload.get('name') or f'Deck {now}'`, creates the deck, then inserts one
card per entry of `payload.get('cards', [])`.  Returns the store as left by
the call (also on an exception, since every insert committed) and the
returned `deck_id` or the exception raised. -/
def import_deck_json (db : DB) (src : ReadJson) (ts : Nat) :
    DB × Except PyError Nat :=
  match src with
  | ReadJson.ioFailure => (db, Except.error PyError.ioError)
  | ReadJson.parseFailure => (db, Except.error PyError.jsonDecodeError)
  | ReadJson.parsed payload =>
    match payload with
    | Json.obj fields =>
      let nameVal := (objGet? fields "name").getD Json.null
      let nameJ := if pyTruthy nameVal then nameVal else Json.str (synthName ts)
      match bindText nameJ with
      | Except.error e => (db, Except.error e)
      | Except.ok none => (db, Except.error PyError.integrityError)
      | Except.ok (some nm) =>
        let r := add_deck db nm ts
        match pyIter ((objGet? fields "cards").getD (Json.arr [])) with
        | Except.error e => (r.1, Except.error e)
        | Except.ok entries => importCards r.1 r.2 ts entries
    | _ => (db, Except.error PyError.attributeError)

/-! The study session: `App.start_study` snapshots the deck, `StudyWindow`
owns the queue. -/

/-- A study-queue entry: `{'id': c[0], 'front': c[1], 'back': c[2]}` built by
`App.start_study` from one `cards_in_deck` row. -/
structure Entry where
  id : Nat
  front : Option String
  back : Option String
deriving Repr, DecidableEq

/-- `App.start_study`s snapshot of the selected deck. -/
def start_study (db : DB) (deck_id : Nat) : List Entry :=
  (cards_in_deck db deck_id).map (fun t => { id := t.1, front := t.2.1, back := t.2.2.1 })

/-- `StudyWindow` state: the queue, `self.current`, the `back_shown` flag,
and whether the window has been destroyed (`closed`); a destroyed window
receives no further events, which models `self.destroy()`. -/
structure Session where
  queue : List Entry
  current : Option Entry
  back_shown : Bool
  closed : Bool
deriving Repr, DecidableEq

/-- `StudyWindow.next_card`: with an empty queue, announce completion and
destroy the window (`current` keeps its last value); otherwise pop the front
of the queue as current and show its front side (`back_shown = False`). -/
def next_card (s : Session) : Session :=
  match s.queue with
  | [] => { s with closed := true }
  | e :: rest => { queue := rest, current := some e, back_shown := false, closed := s.closed }

/-- `StudyWindow.__init__`: copy the snapshot into the queue, no current
card, `back_shown = False`, then `next_card`. -/
def startSession (entries : List Entry) : Session :=
  next_card { queue := entries, current := none, back_shown := false, closed := false }

/-- `StudyWindow.flip`: toggle which side is displayed; a no-op without a
current card. -/
def flip (s : Session) : Session :=
  if s.closed then s
  else match s.current with
    | none => s
    | some _ => { s with back_shown := ! s.back_shown }

/-- `StudyWindow.mark`: record the result for the current card through the
repository, drop the card when correct or append it to the back of the queue
when not, then `next_card`. -/
def mark (db : DB) (s : Session) (correct : Bool) : DB × Session :=
  if s.closed then (db, s)
  else match s.current with
    | none => (db, s)
    | some e =>
      let db1 := record_result db e.id correct
      let s1 := if correct then s else { s with queue := s.queue ++ [e] }
      (db1, next_card s1)

/-- `n` consecutive `mark(True)` presses. -/
def runCorrect : DB → Session → Nat → DB × Session
  | db, s, 0 => (db, s)
  | db, s, n + 1 =>
    let r := mark db s true
    runCorrect r.1 r.2 n

/-! Store invariants the application maintains. -/

/-- The cards table is strictly sorted by id — true of every table the
program builds, since each fresh rowid exceeds every stored id. -/
def CardsSorted (l : List CardRow) : Prop := l.Pairwise (fun a b => a.id < b.id)

instance (l : List CardRow) : Decidable (CardsSorted l) :=
  inferInstanceAs (Decidable (l.Pairwise (fun a b : CardRow => a.id < b.id)))

/-- Every card's `deck_id` names a currently-existing deck. -/
def orphanFree (db : DB) : Prop :=
  ∀ r ∈ db.cards, ∃ dk ∈ db.decks, dk.id = r.deck_id

instance (db : DB) : Decidable (orphanFree db) :=
  inferInstanceAs (Decidable (∀ r ∈ db.cards, ∃ dk ∈ db.decks, dk.id = r.deck_id))

/-! Claim theorems. -/

/-- C1.  For every existing card (here: every position `i` of the cards
table), one `record_result` call bumps that row's `seen_count` by exactly 1,
bumps `correct_count` by exactly 1 iff `correct`, leaves the row's other
fields alone, leaves every other row alone, and leaves the decks table
alone. -/
theorem record_result_spec (db : DB) (card_id : Nat) (correct : Bool) :
    (record_result db card_id correct).decks = db.decks ∧
    (record_result db card_id correct).cards.length = db.cards.length ∧
    ∀ (i : Nat) (r r' : CardRow), db.cards[i]? = some r →
      (record_result db card_id correct).cards[i]? = some r' →
      (r.id ≠ card_id → r' = r) ∧
      (r.id = card_id →
        r'.seen_count = r.seen_count + 1 ∧
        r'.correct_count = r.correct_count + (if correct then 1 else 0) ∧
        r'.id = r.id ∧ r'.deck_id = r.deck_id ∧ r'.front = r.front ∧
        r'.back = r.back ∧ r'.created_at = r.created_at) := by
  refine ⟨rfl, by simp [record_result], ?_⟩
  intro i r r' hr hr'
  rw [record_result] at hr'
  simp only [List.getElem?_map, hr, Option.map_some', Option.some.injEq] at hr'
  refine ⟨fun hne => ?_, fun heq => ?_⟩
  · rw [if_neg (by simp [hne])] at hr'
    exact hr'.symm
  · rw [if_pos (by simp [heq])] at hr'
    subst hr'
    cases correct <;> simp

/-- C9.  `update_card` rewrites only the matching row's `front` and `back`;
its statistics, `deck_id` and `created_at` stay, every other row stays, and
the decks table stays. -/
theorem update_card_spec (db : DB) (card_id : Nat) (front back : Option String) :
    (update_card db card_id front back).decks = db.decks ∧
    (update_card db card_id front back).cards.length = db.cards.length ∧
    ∀ (i : Nat) (r r' : CardRow), db.cards[i]? = some r →
      (update_card db card_id front back).cards[i]? = some r' →
      (r.id ≠ card_id → r' = r) ∧
      (r.id = card_id →
        r'.front = front ∧ r'.back = back ∧
        r'.id = r.id ∧ r'.deck_id = r.deck_id ∧
        r'.correct_count = r.correct_count ∧ r'.seen_count = r.seen_count ∧
        r'.created_at = r.created_at) := by
  refine ⟨rfl, by simp [update_card], ?_⟩
  intro i r r' hr hr'
  rw [update_card] at hr'
  simp only [List.getElem?_map, hr, Option.map_some', Option.some.injEq] at hr'
  refine ⟨fun hne => ?_, fun heq => ?_⟩
  · rw [if_neg (by simp [hne])] at hr'
    exact hr'.symm
  · rw [if_pos (by simp [heq])] at hr'
    subst hr'
    simp

/-- C10.  `record_result` on an id no card carries matches zero rows: it
raises nothing and the store is untouched. -/
theorem record_result_missing (db : DB) (card_id : Nat) (correct : Bool)
    (h : ∀ r ∈ db.cards, r.id ≠ card_id) :
    record_result db card_id correct = db := by
  have hm : db.cards.map (fun r =>
      if r.id == card_id then
        if correct then
          { r with correct_count := r.correct_count + 1, seen_count := r.seen_count + 1 }
        else
          { r with seen_count := r.seen_count + 1 }
      else r) = db.cards := by
    have := List.map_congr_left (l := db.cards)
      (g := id)
      (f := fun r : CardRow =>
        if r.id == card_id then
          if correct then
            { r with correct_count := r.correct_count + 1, seen_count := r.seen_count + 1 }
          else
            { r with seen_count := r.seen_count + 1 }
        else r)
      (fun r hr => by simp [h r hr])
    simpa using this
  cases db with
  | mk ds cs => exact congrArg (DB.mk ds) hm

/-- Concrete store for the C10 witness: one card with id 1. -/
def dbW10 : DB :=
  { decks := [{ id := 1, name := "D", created_at := 0 }],
    cards := [{ id := 1, deck_id := 1, front := some "f", back := some "b",
                correct_count := 2, seen_count := 5, created_at := 0 }] }

/-- C10 witness: in `dbW10` no card has id 2, and recording a result for
card 2 leaves the store unchanged. -/
theorem record_result_missing_witness :
    (∀ r ∈ dbW10.cards, r.id ≠ 2) ∧ record_result dbW10 2 true = dbW10 :=
  ⟨by decide, record_result_missing dbW10 2 true (by decide)⟩

/-- C3.  `delete_deck` leaves no card of the deck behind: `cards_in_deck` of
the deleted deck is empty, the deck row is gone, and every other deck's card
listing is exactly what it was (no card of the deleted deck resurfaces
elsewhere).  In the code both `DELETE` statements commit as one unit. -/
theorem delete_deck_spec (db : DB) (d : Nat) :
    cards_in_deck (delete_deck db d) d = [] ∧
    (∀ dk ∈ (delete_deck db d).decks, dk.id ≠ d) ∧
    (∀ d2, d2 ≠ d → cards_in_deck (delete_deck db d) d2 = cards_in_deck db d2) := by
  refine ⟨?_, ?_, ?_⟩
  · have hnil : (db.cards.filter (fun r => ! (r.deck_id == d))).filter
        (fun r => r.deck_id == d) = [] := by
      rw [List.filter_filter, List.filter_eq_nil_iff]
      intro r _
      cases h : r.deck_id == d <;> simp [h]
    simp [cards_in_deck, delete_deck, hnil, orderById]
  · intro dk hdk
    have := (List.mem_filter.mp hdk).2
    simpa using this
  · intro d2 hne
    simp only [cards_in_deck, delete_deck]
    congr 2
    rw [List.filter_filter]
    apply List.filter_congr
    intro r _
    by_cases h : r.deck_id = d2
    · have : (d2 == d) = false := by simp [hne]
      simp [h, this]
    · simp [h]

/-- C4's failing input, run: inserting a card into the empty store under the
nonexistent deck id 1 succeeds and leaves an orphan card — the connection
never turns `PRAGMA foreign_keys` on, so the declared foreign key is not
enforced. -/
theorem add_card_orphan :
    (add_card emptyDB 1 (some "a") (some "b") 0).1.decks = [] ∧
    (add_card emptyDB 1 (some "a") (some "b") 0).1.cards ≠ [] ∧
    ¬ orphanFree (add_card emptyDB 1 (some "a") (some "b") 0).1 := by
  refine ⟨rfl, by decide, ?_⟩
  intro h
  rcases h (⟨1, 1, some "a", some "b", 0, 0, 0⟩ : CardRow) (by decide) with ⟨dk, hdk, _⟩
  simp [add_card, emptyDB] at hdk

/-- C7 counterexample: the payload `{}` is valid JSON but lacks the required
shape of §6 (no `cards`, no `name`); the claim demands a `FormatError` and an
unchanged store, yet the import succeeds and creates a (cardless) deck with a
synthesized name. -/
theorem import_shapeless_accepted :
    import_deck_json emptyDB (ReadJson.parsed (Json.obj [])) 7 =
      ({ decks := [{ id := 1, name := "Deck 7", created_at := 7 }], cards := [] },
       Except.ok 1) := by
  rfl

/-- C7, amended.  The two genuine failure modes leave the store untouched:
an unreadable source raises `IOError` and text that is not JSON raises the
parse error, both before anything is written; a source parsing to a
non-object raises `AttributeError`, still with the store untouched; but a
payload that parses to a JSON object is accepted without shape validation —
in particular the shapeless `{}` imports as a fresh empty deck. -/
theorem import_failure_spec (db : DB) (ts : Nat) :
    import_deck_json db ReadJson.ioFailure ts = (db, Except.error PyError.ioError) ∧
    import_deck_json db ReadJson.parseFailure ts = (db, Except.error PyError.jsonDecodeError) ∧
    (∀ payload : Json, (∀ fields, payload ≠ Json.obj fields) →
      import_deck_json db (ReadJson.parsed payload) ts =
        (db, Except.error PyError.attributeError)) ∧
    (import_deck_json db (ReadJson.parsed (Json.obj [])) ts).2 =
      Except.ok (deckMaxId db + 1) := by
  refine ⟨rfl, rfl, ?_, ?_⟩
  · intro payload hp
    cases payload with
    | null => rfl
    | bool b => rfl
    | num n => rfl
    | str s => rfl
    | arr items => rfl
    | obj fields => exact absurd rfl (hp fields)
  · rfl

/-- An all-correct run over a session whose current card is set and whose
queue holds `q`: after `q.length + 1` marks the window is destroyed with an
empty queue. -/
theorem runCorrect_closes (q : List Entry) : ∀ (db : DB) (e : Entry) (bs : Bool),
    (runCorrect db { queue := q, current := some e, back_shown := bs, closed := false }
        (q.length + 1)).2.closed = true ∧
    (runCorrect db { queue := q, current := some e, back_shown := bs, closed := false }
        (q.length + 1)).2.queue = [] := by
  induction q with
  | nil =>
    intro db e bs
    simp [runCorrect, mark, next_card]
  | cons x rest ih =>
    intro db e bs
    simpa [runCorrect, mark, next_card] using
      ih (record_result db e.id true) x false

/-- Before the marks run out of cards, the session is still open. -/
theorem runCorrect_open : ∀ (k : Nat) (q : List Entry) (db : DB) (e : Entry) (bs : Bool),
    k ≤ q.length →
    (runCorrect db { queue := q, current := some e, back_shown := bs, closed := false }
        k).2.closed = false := by
  intro k
  induction k with
  | zero =>
    intro q db e bs _
    simp [runCorrect]
  | succ n ih =>
    intro q db e bs h
    match q with
    | [] => exact absurd h (by simp)
    | x :: rest =>
      have hn : n ≤ rest.length := by simpa using h
      simpa [runCorrect, mark, next_card] using
        ih rest (record_result db e.id true) x false hn

/-- C2.  With a current entry `e` in an open study window, `mark True`
records the result and discards the entry (the statistics write lands on the
store handed back; with `e` not elsewhere in the queue it never reappears),
`mark False` records the result and appends `e` to the back of the queue;
both then advance: the new front of the queue becomes current with the front
side shown (`back_shown = false`), or the window closes when the queue is
empty.  And a session started on a snapshot of `N` entries in which every
mark is `True` is closed with an empty queue after exactly `N` marks, and
still open after any fewer. -/
theorem mark_spec (db : DB) (s : Session) (e : Entry)
    (hopen : s.closed = false) (hcur : s.current = some e) :
    (mark db s true).1 = record_result db e.id true ∧
    (mark db s true).2 = next_card s ∧
    (mark db s false).1 = record_result db e.id false ∧
    (mark db s false).2 = next_card { s with queue := s.queue ++ [e] } ∧
    (s.queue = [] →
      (mark db s true).2.closed = true ∧ (mark db s true).2.queue = []) ∧
    (∀ x q, s.queue = x :: q →
      (mark db s true).2.closed = false ∧ (mark db s true).2.current = some x ∧
      (mark db s true).2.queue = q ∧ (mark db s true).2.back_shown = false) ∧
    (e ∉ s.queue → e ∉ (mark db s true).2.queue) ∧
    (mark db s false).2.closed = false ∧
    (mark db s false).2.back_shown = false ∧
    (s.queue = [] →
      (mark db s false).2.current = some e ∧ (mark db s false).2.queue = []) ∧
    (∀ x q, s.queue = x :: q →
      (mark db s false).2.current = some x ∧
      (mark db s false).2.queue = q ++ [e]) ∧
    (∀ (db0 : DB) (entries : List Entry),
      ((runCorrect db0 (startSession entries) entries.length).2.closed = true ∧
       (runCorrect db0 (startSession entries) entries.length).2.queue = []) ∧
      (∀ k, k < entries.length →
        (runCorrect db0 (startSession entries) k).2.closed = false)) := by
  have hmt : mark db s true = (record_result db e.id true, next_card s) := by
    simp [mark, hopen, hcur]
  have hmf : mark db s false =
      (record_result db e.id false, next_card { s with queue := s.queue ++ [e] }) := by
    simp [mark, hopen, hcur]
  refine ⟨by rw [hmt], by rw [hmt], by rw [hmf], by rw [hmf], ?_, ?_, ?_, ?_, ?_, ?_, ?_, ?_⟩
  · intro hq
    rw [hmt]
    simp [next_card, hq]
  · intro x q hq
    rw [hmt]
    simp [next_card, hq, hopen]
  · intro hnm
    rw [hmt]
    cases hq : s.queue with
    | nil => simp [next_card, hq]
    | cons x rest =>
      simp only [next_card, hq]
      intro hmem
      exact hnm (by rw [hq]; exact List.mem_cons_of_mem x hmem)
  · rw [hmf]
    cases hq : s.queue <;> simp [next_card, hq, hopen]
  · rw [hmf]
    cases hq : s.queue <;> simp [next_card, hq]
  · intro hq
    rw [hmf]
    simp [next_card, hq, hcur]
  · intro x q hq
    rw [hmf]
    simp [next_card, hq]
  · intro db0 entries
    cases entries with
    | nil =>
      refine ⟨by simp [runCorrect, startSession, next_card], ?_⟩
      intro k hk
      exact absurd hk (by simp)
    | cons x rest =>
      have hstart : startSession (x :: rest) =
          { queue := rest, current := some x, back_shown := false, closed := false } := by
        simp [startSession, next_card]
      refine ⟨?_, ?_⟩
      · rw [hstart]
        exact ⟨(runCorrect_closes rest db0 x false).1,
          (runCorrect_closes rest db0 x false).2⟩
      · intro k hk
        rw [hstart]
        exact runCorrect_open k rest db0 x false (by simpa using Nat.lt_succ_iff.mp hk)

/-- Concrete session for the C2 witness: current entry 1, one more entry
queued. -/
def sessW : Session :=
  { queue := [{ id := 2, front := some "g", back := some "c" }],
    current := some { id := 1, front := some "f", back := some "b" },
    back_shown := false, closed := false }

/-- The C2 witness's current entry. -/
def entW : Entry := { id := 1, front := some "f", back := some "b" }

/-- C2 witness: `sessW` is open with current entry `entW`, and `mark`
behaves there as `mark_spec` states. -/
theorem mark_spec_witness :
    sessW.closed = false ∧ sessW.current = some entW ∧
    (mark emptyDB sessW true).1 = record_result emptyDB entW.id true ∧
    (mark emptyDB sessW true).2 = next_card sessW ∧
    (mark emptyDB sessW false).2 =
      next_card { sessW with queue := sessW.queue ++ [entW] } ∧
    ((runCorrect emptyDB (startSession [entW]) 1).2.closed = true ∧
     (runCorrect emptyDB (startSession [entW]) 1).2.queue = []) :=
  ⟨rfl, rfl, (mark_spec emptyDB sessW entW rfl rfl).1,
    (mark_spec emptyDB sessW entW rfl rfl).2.1,
    (mark_spec emptyDB sessW entW rfl rfl).2.2.2.1,
    ((mark_spec emptyDB sessW entW rfl rfl).2.2.2.2.2.2.2.2.2.2.2 emptyDB [entW]).1⟩

/-- Sorting by id is the identity on a list already strictly sorted by id. -/
theorem orderById_of_sorted : ∀ (l : List CardRow), CardsSorted l → orderById l = l := by
  intro l
  induction l with
  | nil => intro _; rfl
  | cons x xs ih =>
    intro h
    have h2 := List.pairwise_cons.mp h
    rw [orderById, ih h2.2]
    cases xs with
    | nil => rfl
    | cons y ys =>
      have hxy : x.id < y.id := h2.1 y (by simp)
      simp [insertById, Nat.le_of_lt hxy]

/-- C6.  On a store whose cards table is sorted by id (as every store the
program builds is), the `cards` array `export_deck_json` emits — a `SELECT`
without ORDER BY, i.e. table order — lists exactly the rows of
`cards_in_deck` (`ORDER BY id`, insertion order) in the same order:
`cards_in_deck` is the row-by-row projection of the emitted array. -/
theorem export_matches_listCards (db : DB) (d ts : Nat) (dk : DeckRow)
    (hsorted : CardsSorted db.cards)
    (hfind : db.decks.find? (fun r => r.id == d) = some dk) :
    ∃ rows, export_deck_json db d ts = Except.ok (exportPayload dk.name ts rows) ∧
      cards_in_deck db d = rows.map
        (fun r => (r.id, r.front, r.back, r.correct_count, r.seen_count)) := by
  refine ⟨db.cards.filter (fun r => r.deck_id == d), ?_, ?_⟩
  · simp [export_deck_json, hfind]
  · unfold cards_in_deck
    rw [orderById_of_sorted _ (List.Pairwise.sublist (List.filter_sublist _) hsorted)]

/-- Concrete store for the C6 witness: one deck, two cards. -/
def dbW6 : DB :=
  { decks := [{ id := 1, name := "D", created_at := 0 }],
    cards := [{ id := 1, deck_id := 1, front := some "x", back := some "y",
                correct_count := 0, seen_count := 1, created_at := 2 },
              { id := 2, deck_id := 1, front := some "z", back := none,
                correct_count := 3, seen_count := 4, created_at := 5 }] }

/-- The C6 witness's deck row. -/
def deckW6 : DeckRow := { id := 1, name := "D", created_at := 0 }

/-- C6 witness: `dbW6` is sorted, deck 1 resolves to `deckW6`, and the
export/`cards_in_deck` order agreement holds there. -/
theorem export_matches_listCards_witness :
    CardsSorted dbW6.cards ∧
    dbW6.decks.find? (fun r => r.id == 1) = some deckW6 ∧
    (∃ rows, export_deck_json dbW6 1 9 = Except.ok (exportPayload deckW6.name 9 rows) ∧
      cards_in_deck dbW6 1 = rows.map
        (fun r => (r.id, r.front, r.back, r.correct_count, r.seen_count))) :=
  ⟨by decide, rfl, export_matches_listCards dbW6 1 9 deckW6 (by decide) rfl⟩

/-! Helper lemmas about rowid maxima and a characterization of the card
inserts the import loop performs. -/

theorem foldr_maxId_init (l : List CardRow) (a : Nat) :
    l.foldr (fun r m => max r.id m) a = max (l.foldr (fun r m => max r.id m) 0) a := by
  induction l with
  | nil => simp
  | cons x xs ih => simp [ih, Nat.max_assoc]

theorem le_foldr_maxKey {α : Type} (key : α → Nat) (l : List α) :
    ∀ x ∈ l, key x ≤ l.foldr (fun r m => max (key r) m) 0 := by
  induction l with
  | nil => intro x h; exact absurd h (List.not_mem_nil x)
  | cons y ys ih =>
    intro x h
    rcases List.mem_cons.mp h with h1 | h1
    · rw [h1]; exact Nat.le_max_left _ _
    · exact le_trans (ih x h1) (Nat.le_max_right _ _)

theorem le_cardMaxId {db : DB} {r : CardRow} (h : r ∈ db.cards) : r.id ≤ cardMaxId db :=
  le_foldr_maxKey CardRow.id db.cards r h

theorem le_deckMaxId {db : DB} {dk : DeckRow} (h : dk ∈ db.decks) : dk.id ≤ deckMaxId db :=
  le_foldr_maxKey DeckRow.id db.decks dk h

theorem cardMaxId_append (db : DB) (x : CardRow) :
    cardMaxId { decks := db.decks, cards := db.cards ++ [x] } = max (cardMaxId db) x.id := by
  unfold cardMaxId
  rw [List.foldr_append, foldr_maxId_init]
  simp

theorem cardMaxId_add_card (db : DB) (deck_id : Nat) (f b : Option String) (ts : Nat) :
    cardMaxId (add_card db deck_id f b ts).1 = cardMaxId db + 1 := by
  have h : (add_card db deck_id f b ts).1 =
      { decks := db.decks,
        cards := db.cards ++
          [{ id := cardMaxId db + 1, deck_id := deck_id, front := f, back := b,
             correct_count := 0, seen_count := 0, created_at := ts }] } := rfl
  rw [h, cardMaxId_append]
  exact Nat.max_eq_right (Nat.le_succ _)

/-- The inserts the import loop issues, folded over the exported rows. -/
def appendFresh (db : DB) (deck_id ts : Nat) : List CardRow → DB
  | [] => db
  | r :: rest => appendFresh (add_card db deck_id r.front r.back ts).1 deck_id ts rest

/-- The card rows those inserts append: consecutive ids above `base`, the
imported front/back, zeroed statistics, the import instant as creation
time. -/
def freshRows (base deck_id ts : Nat) : List CardRow → List CardRow
  | [] => []
  | r :: rest =>
    { id := base + 1, deck_id := deck_id, front := r.front, back := r.back,
      correct_count := 0, seen_count := 0, created_at := ts } ::
      freshRows (base + 1) deck_id ts rest

theorem appendFresh_decks : ∀ (rows : List CardRow) (db : DB) (deck_id ts : Nat),
    (appendFresh db deck_id ts rows).decks = db.decks := by
  intro rows
  induction rows with
  | nil => intro db d ts; rfl
  | cons r rest ih =>
    intro db d ts
    rw [appendFresh, ih]
    rfl

theorem appendFresh_cards : ∀ (rows : List CardRow) (db : DB) (deck_id ts : Nat),
    (appendFresh db deck_id ts rows).cards =
      db.cards ++ freshRows (cardMaxId db) deck_id ts rows := by
  intro rows
  induction rows with
  | nil => intro db d ts; simp [appendFresh, freshRows]
  | cons r rest ih =>
    intro db d ts
    rw [appendFresh, ih, cardMaxId_add_card, freshRows]
    show (db.cards ++ [_]) ++ _ = _
    rw [List.append_assoc]
    rfl

theorem freshRows_fields : ∀ (rows : List CardRow) (base d ts : Nat) (r2 : CardRow),
    r2 ∈ freshRows base d ts rows →
    r2.deck_id = d ∧ r2.correct_count = 0 ∧ r2.seen_count = 0 ∧
    r2.created_at = ts ∧ base < r2.id := by
  intro rows
  induction rows with
  | nil => intro base d ts r2 h; exact absurd h (List.not_mem_nil r2)
  | cons r rest ih =>
    intro base d ts r2 h
    rw [freshRows] at h
    rcases List.mem_cons.mp h with h1 | h1
    · rw [h1]; exact ⟨rfl, rfl, rfl, rfl, Nat.lt_succ_self base⟩
    · obtain ⟨a, b, c, d2, e⟩ := ih (base + 1) d ts r2 h1
      exact ⟨a, b, c, d2, lt_trans (Nat.lt_succ_self base) e⟩

theorem freshRows_sorted : ∀ (rows : List CardRow) (base d ts : Nat),
    CardsSorted (freshRows base d ts rows) := by
  intro rows
  induction rows with
  | nil => intro base d ts; exact List.Pairwise.nil
  | cons r rest ih =>
    intro base d ts
    rw [freshRows]
    refine List.pairwise_cons.mpr ⟨?_, ih (base + 1) d ts⟩
    intro r2 h
    exact (freshRows_fields rest (base + 1) d ts r2 h).2.2.2.2

theorem freshRows_front_back : ∀ (rows : List CardRow) (base d ts : Nat),
    (freshRows base d ts rows).map (fun r => (r.front, r.back)) =
      rows.map (fun r => (r.front, r.back)) := by
  intro rows
  induction rows with
  | nil => intro base d ts; rfl
  | cons r rest ih =>
    intro base d ts
    rw [freshRows, List.map_cons, List.map_cons, ih]

theorem freshRows_length : ∀ (rows : List CardRow) (base d ts : Nat),
    (freshRows base d ts rows).length = rows.length := by
  intro rows
  induction rows with
  | nil => intro base d ts; rfl
  | cons r rest ih =>
    intro base d ts
    rw [freshRows, List.length_cons, List.length_cons, ih]

theorem bindText_optJson (o : Option String) : bindText (optJson o) = Except.ok o := by
  cases o <;> rfl

/-- Importing the card objects the export emitted performs exactly the
corresponding card inserts and succeeds. -/
theorem importCards_cardJson : ∀ (rows : List CardRow) (db : DB) (deck_id ts : Nat),
    importCards db deck_id ts (rows.map cardJson) =
      (appendFresh db deck_id ts rows, Except.ok deck_id) := by
  intro rows
  induction rows with
  | nil => intro db d ts; rfl
  | cons r rest ih =>
    intro db d ts
    have hf : entryGet (cardJson r) "front" (Json.str "") = Except.ok (optJson r.front) := rfl
    have hb : entryGet (cardJson r) "back" (Json.str "") = Except.ok (optJson r.back) := rfl
    simp only [List.map_cons, importCards, hf, hb, bindText_optJson]
    rw [appendFresh]
    exact ih _ d ts

/-- Importing an exported payload runs the deck insert under the deck's name
(or the synthesized one when that name is empty, since `'' or default` takes
the default) and then the card-insert loop over the exported card objects. -/
theorem import_exportPayload (db : DB) (nm : String) (ts1 ts2 : Nat) (rows : List CardRow) :
    import_deck_json db (ReadJson.parsed (exportPayload nm ts1 rows)) ts2 =
      importCards (add_deck db (if nm = "" then synthName ts2 else nm) ts2).1
        (deckMaxId db + 1) ts2 (rows.map cardJson) := by
  by_cases h : nm = ""
  · subst h
    rw [if_pos rfl]
    rfl
  · rw [if_neg h]
    have hp : pyTruthy (Json.str nm) = true := by simp [pyTruthy, h]
    have e1 : ("name" == "name") = true := rfl
    have e2 : ("exported_at" == "name") = false := rfl
    have e3 : ("cards" == "name") = false := rfl
    have e4 : ("name" == "cards") = false := rfl
    have e5 : ("exported_at" == "cards") = false := rfl
    have e6 : ("cards" == "cards") = true := rfl
    simp only [import_deck_json, exportPayload, objGet?, List.find?, Option.getD, Option.map,
      e1, e2, e3, e4, e5, e6, hp, if_true, bindText, pyIter]
    rfl

/-- Core of the round-trip: running the import-side inserts on the exported
rows of deck `d` — over a sorted, orphan-free store — creates a fresh deck
holding copies of those rows in order with zeroed statistics and the import
instant as creation time. -/
theorem roundtrip_core (db : DB) (d ts1 ts2 : Nat) (nm : String)
    (hsorted : CardsSorted db.cards) (horph : orphanFree db) (hts : ts1 < ts2) :
    ∃ db2 nid,
      importCards (add_deck db nm ts2).1 (deckMaxId db + 1) ts2
          ((db.cards.filter (fun r => r.deck_id == d)).map cardJson) =
        (db2, Except.ok nid) ∧
      (∀ dk2 ∈ db.decks, dk2.id ≠ nid) ∧
      db2.decks.length = db.decks.length + 1 ∧
      (cards_in_deck db2 nid).length = (cards_in_deck db d).length ∧
      (cards_in_deck db2 nid).map (fun t => (t.2.1, t.2.2.1)) =
        (cards_in_deck db d).map (fun t => (t.2.1, t.2.2.1)) ∧
      (∀ t ∈ cards_in_deck db2 nid, t.2.2.2.1 = 0 ∧ t.2.2.2.2 = 0) ∧
      (∀ r ∈ db2.cards, r.deck_id = nid → ts1 < r.created_at) := by
  have hnid : ∀ dk2 ∈ db.decks, dk2.id ≠ deckMaxId db + 1 := by
    intro dk2 h2
    have := le_deckMaxId h2
    omega
  have hdecks2 : (appendFresh (add_deck db nm ts2).1 (deckMaxId db + 1) ts2
      (db.cards.filter (fun r => r.deck_id == d))).decks =
      db.decks ++ [{ id := deckMaxId db + 1, name := nm, created_at := ts2 }] := by
    rw [appendFresh_decks]
    rfl
  have hcards2 : (appendFresh (add_deck db nm ts2).1 (deckMaxId db + 1) ts2
      (db.cards.filter (fun r => r.deck_id == d))).cards =
      db.cards ++ freshRows (cardMaxId db) (deckMaxId db + 1) ts2
        (db.cards.filter (fun r => r.deck_id == d)) := by
    rw [appendFresh_cards]
    rfl
  have hold : ∀ r ∈ db.cards, (r.deck_id == deckMaxId db + 1) = false := by
    intro r hr
    obtain ⟨dk3, hdk3, hid⟩ := horph r hr
    have := le_deckMaxId hdk3
    simp only [beq_eq_false_iff_ne]
    omega
  have hfilter2 : (appendFresh (add_deck db nm ts2).1 (deckMaxId db + 1) ts2
      (db.cards.filter (fun r => r.deck_id == d))).cards.filter
        (fun r => r.deck_id == deckMaxId db + 1) =
      freshRows (cardMaxId db) (deckMaxId db + 1) ts2
        (db.cards.filter (fun r => r.deck_id == d)) := by
    rw [hcards2, List.filter_append]
    rw [List.filter_eq_nil_iff.mpr (fun r hr => by simp [hold r hr])]
    rw [List.nil_append]
    apply List.filter_eq_self.mpr
    intro r hr
    have := (freshRows_fields _ _ _ _ r hr).1
    simp [this]
  have hcid2 : cards_in_deck (appendFresh (add_deck db nm ts2).1 (deckMaxId db + 1) ts2
      (db.cards.filter (fun r => r.deck_id == d))) (deckMaxId db + 1) =
      (freshRows (cardMaxId db) (deckMaxId db + 1) ts2
        (db.cards.filter (fun r => r.deck_id == d))).map
        (fun r => (r.id, r.front, r.back, r.correct_count, r.seen_count)) := by
    unfold cards_in_deck
    rw [hfilter2, orderById_of_sorted _ (freshRows_sorted _ _ _ _)]
  have hcidd : cards_in_deck db d =
      (db.cards.filter (fun r => r.deck_id == d)).map
        (fun r => (r.id, r.front, r.back, r.correct_count, r.seen_count)) := by
    unfold cards_in_deck
    rw [orderById_of_sorted _ (List.Pairwise.sublist (List.filter_sublist _) hsorted)]
  refine ⟨_, deckMaxId db + 1,
    importCards_cardJson (db.cards.filter (fun r => r.deck_id == d))
      (add_deck db nm ts2).1 (deckMaxId db + 1) ts2,
    hnid, ?_, ?_, ?_, ?_, ?_⟩
  · rw [hdecks2]
    simp
  · rw [hcid2, hcidd]
    simp [freshRows_length]
  · rw [hcid2, hcidd, List.map_map, List.map_map]
    exact freshRows_front_back _ _ _ _
  · intro t ht
    rw [hcid2] at ht
    obtain ⟨r, hrmem, rfl⟩ := List.mem_map.mp ht
    have h := freshRows_fields _ _ _ _ r hrmem
    exact ⟨h.2.1, h.2.2.1⟩
  · intro r hr hdid
    rw [hcards2] at hr
    rcases List.mem_append.mp hr with h1 | h1
    · have := hold r h1
      rw [beq_eq_false_iff_ne] at this
      exact absurd hdid this
    · have h := freshRows_fields _ _ _ _ r h1
      rw [h.2.2.2.1]
      exact hts

/-- C5.  Exporting an existing deck `d` of a sorted, orphan-free store and
importing the produced file later creates a brand-new deck (its id is no
existing deck's) holding the same number of cards with identical
(front, back) pairs in the same order, every imported card carrying
`correct_count = 0`, `seen_count = 0` and a `created_at` newer than the
export instant — the statistics the payload carries are ignored. -/
theorem export_import_roundtrip (db : DB) (d ts1 ts2 : Nat) (dk : DeckRow) (payload : Json)
    (hsorted : CardsSorted db.cards) (horph : orphanFree db)
    (hfind : db.decks.find? (fun r => r.id == d) = some dk)
    (hexp : export_deck_json db d ts1 = Except.ok payload)
    (hts : ts1 < ts2) :
    ∃ db2 nid,
      import_deck_json db (ReadJson.parsed payload) ts2 = (db2, Except.ok nid) ∧
      (∀ dk2 ∈ db.decks, dk2.id ≠ nid) ∧
      db2.decks.length = db.decks.length + 1 ∧
      (cards_in_deck db2 nid).length = (cards_in_deck db d).length ∧
      (cards_in_deck db2 nid).map (fun t => (t.2.1, t.2.2.1)) =
        (cards_in_deck db d).map (fun t => (t.2.1, t.2.2.1)) ∧
      (∀ t ∈ cards_in_deck db2 nid, t.2.2.2.1 = 0 ∧ t.2.2.2.2 = 0) ∧
      (∀ r ∈ db2.cards, r.deck_id = nid → ts1 < r.created_at) := by
  simp only [export_deck_json, hfind] at hexp
  injection hexp with hexp
  subst hexp
  rw [import_exportPayload]
  exact roundtrip_core db d ts1 ts2 (if dk.name = "" then synthName ts2 else dk.name)
    hsorted horph hts

/-- Concrete store for the C5 witness: one deck, two cards with nonzero
statistics (so the zeroing is visible). -/
def dbW5 : DB :=
  { decks := [{ id := 1, name := "D", created_at := 0 }],
    cards := [{ id := 1, deck_id := 1, front := some "hola", back := some "hello",
                correct_count := 2, seen_count := 3, created_at := 2 },
              { id := 2, deck_id := 1, front := some "adios", back := some "bye",
                correct_count := 0, seen_count := 1, created_at := 3 }] }

/-- The C5 witness's deck row. -/
def deckW5 : DeckRow := { id := 1, name := "D", created_at := 0 }

/-- C5 witness: `dbW5` is sorted and orphan-free, exporting deck 1 at
instant 10 yields the payload shown, and re-importing it at instant 11
behaves as `export_import_roundtrip` states. -/
theorem export_import_roundtrip_witness :
    CardsSorted dbW5.cards ∧ orphanFree dbW5 ∧
    export_deck_json dbW5 1 10 = Except.ok (exportPayload "D" 10 dbW5.cards) ∧
    (∃ db2 nid,
      import_deck_json dbW5 (ReadJson.parsed (exportPayload "D" 10 dbW5.cards)) 11 =
        (db2, Except.ok nid) ∧
      (∀ dk2 ∈ dbW5.decks, dk2.id ≠ nid) ∧
      db2.decks.length = dbW5.decks.length + 1 ∧
      (cards_in_deck db2 nid).length = (cards_in_deck dbW5 1).length ∧
      (cards_in_deck db2 nid).map (fun t => (t.2.1, t.2.2.1)) =
        (cards_in_deck dbW5 1).map (fun t => (t.2.1, t.2.2.1)) ∧
      (∀ t ∈ cards_in_deck db2 nid, t.2.2.2.1 = 0 ∧ t.2.2.2.2 = 0) ∧
      (∀ r ∈ db2.cards, r.deck_id = nid → 10 < r.created_at)) :=
  ⟨by decide, by decide, rfl,
    export_import_roundtrip dbW5 1 10 11 deckW5 (exportPayload "D" 10 dbW5.cards)
      (by decide) (by decide) rfl rfl (by decide)⟩

/-! C8 helpers: sufficient well-formedness of an import payload's `name` and
`cards` fields. -/

/-- The value can be bound as an sqlite TEXT parameter. -/
def bindable (j : Json) : Bool :=
  match bindText j with
  | Except.ok _ => true
  | Except.error _ => false

/-- A `cards` entry the import loop gets through: a dict whose `front` and
`back` (defaulted to `""` when absent) bind as parameters. -/
def goodEntry (e : Json) : Bool :=
  match e with
  | Json.obj g => bindable ((objGet? g "front").getD (Json.str "")) &&
      bindable ((objGet? g "back").getD (Json.str ""))
  | _ => false

/-- The payload's `cards` field (defaulted to `[]` when absent) is a list of
entries the import loop gets through. -/
def cardsOk (fields : List (String × Json)) : Bool :=
  match (objGet? fields "cards").getD (Json.arr []) with
  | Json.arr items => items.all goodEntry
  | _ => false

/-- The payload's `name` field is absent, null, or a string — the shapes the
claim speaks about. -/
def nameOk (fields : List (String × Json)) : Bool :=
  match (objGet? fields "name").getD Json.null with
  | Json.null => true
  | Json.str _ => true
  | _ => false

theorem bindable_ok {j : Json} (h : bindable j = true) : ∃ v, bindText j = Except.ok v := by
  unfold bindable at h
  cases hb : bindText j with
  | ok v => exact ⟨v, rfl⟩
  | error e => rw [hb] at h; exact absurd h (by simp)

/-- The synthesized deck name is never empty. -/
theorem synthName_ne_empty (ts : Nat) : synthName ts ≠ "" := by
  intro hcon
  have hlen := congrArg String.length hcon
  rw [synthName, String.length_append] at hlen
  have h5 : ("Deck " : String).length = 5 := rfl
  have h0 : ("" : String).length = 0 := rfl
  omega

/-- The import loop succeeds on well-formed entries and never touches the
decks table. -/
theorem importCards_good : ∀ (entries : List Json) (db : DB) (deck_id ts : Nat),
    (∀ e ∈ entries, goodEntry e = true) →
    ∃ db2, importCards db deck_id ts entries = (db2, Except.ok deck_id) ∧
      db2.decks = db.decks := by
  intro entries
  induction entries with
  | nil => intro db d ts _; exact ⟨db, rfl, rfl⟩
  | cons e rest ih =>
    intro db d ts h
    have he := h e (List.mem_cons_self e rest)
    cases e with
    | null => exact absurd he (by simp [goodEntry])
    | bool b => exact absurd he (by simp [goodEntry])
    | num n => exact absurd he (by simp [goodEntry])
    | str s => exact absurd he (by simp [goodEntry])
    | arr items => exact absurd he (by simp [goodEntry])
    | obj g =>
      rw [goodEntry, Bool.and_eq_true] at he
      obtain ⟨fv, hfv⟩ := bindable_ok he.1
      obtain ⟨bv, hbv⟩ := bindable_ok he.2
      obtain ⟨db2, h1, h2⟩ :=
        ih (add_card db d fv bv ts).1 d ts (fun x hx => h x (List.mem_cons_of_mem _ hx))
      refine ⟨db2, ?_, h2⟩
      simp only [importCards, entryGet, hfv, hbv]
      exact h1

/-- What the import does once the deck name has resolved to the string
`nm`. -/
theorem import_obj_reduce (db : DB) (fields : List (String × Json)) (ts : Nat) (nm : String)
    (h : bindText (if pyTruthy ((objGet? fields "name").getD Json.null) then
        (objGet? fields "name").getD Json.null else Json.str (synthName ts)) =
      Except.ok (some nm)) :
    import_deck_json db (ReadJson.parsed (Json.obj fields)) ts =
      match pyIter ((objGet? fields "cards").getD (Json.arr [])) with
      | Except.error e => ((add_deck db nm ts).1, Except.error e)
      | Except.ok entries =>
          importCards (add_deck db nm ts).1 (add_deck db nm ts).2 ts entries := by
  simp only [import_deck_json, h]

/-- C8.  On a payload whose `name` is absent, null or a string and whose
`cards` part is well formed, the import succeeds and creates a new deck; when
the name was absent/empty the deck's name is the synthesized
`"Deck " ++ <current UTC instant>` — in particular non-empty — and when the
name is a non-empty string the deck carries exactly that string. -/
theorem import_name_spec (db : DB) (fields : List (String × Json)) (ts : Nat)
    (hname : nameOk fields = true) (hcards : cardsOk fields = true) :
    ∃ db2 nid,
      import_deck_json db (ReadJson.parsed (Json.obj fields)) ts =
        (db2, Except.ok nid) ∧
      (∀ dk ∈ db.decks, dk.id ≠ nid) ∧
      (∃ dk2 ∈ db2.decks, dk2.id = nid ∧
        (((objGet? fields "name").getD Json.null = Json.null ∨
          (objGet? fields "name").getD Json.null = Json.str "") →
            dk2.name = synthName ts ∧ dk2.name ≠ "") ∧
        (∀ s, objGet? fields "name" = some (Json.str s) → s ≠ "" → dk2.name = s)) := by
  have hnid : ∀ dk ∈ db.decks, dk.id ≠ deckMaxId db + 1 := by
    intro dk h2
    have := le_deckMaxId h2
    omega
  have hcore : ∀ nm : String,
      (bindText (if pyTruthy ((objGet? fields "name").getD Json.null) then
          (objGet? fields "name").getD Json.null else Json.str (synthName ts)) =
        Except.ok (some nm)) →
      ∃ db2,
        import_deck_json db (ReadJson.parsed (Json.obj fields)) ts =
          (db2, Except.ok (deckMaxId db + 1)) ∧
        ({ id := deckMaxId db + 1, name := nm, created_at := ts } : DeckRow) ∈ db2.decks := by
    intro nm hbnd
    rw [import_obj_reduce db fields ts nm hbnd]
    cases hc : (objGet? fields "cards").getD (Json.arr []) with
    | arr items =>
      have hall : ∀ e ∈ items, goodEntry e = true := by
        rw [cardsOk, hc] at hcards
        exact List.all_eq_true.mp hcards
      obtain ⟨db2, h1, h2⟩ := importCards_good items (add_deck db nm ts).1
        (deckMaxId db + 1) ts hall
      refine ⟨db2, ?_, ?_⟩
      · simp only [pyIter]
        exact h1
      · rw [h2]
        show _ ∈ db.decks ++ [_]
        exact List.mem_append_right _ (List.mem_singleton.mpr rfl)
    | null => exact absurd hcards (by rw [cardsOk, hc]; simp)
    | bool b => exact absurd hcards (by rw [cardsOk, hc]; simp)
    | num n => exact absurd hcards (by rw [cardsOk, hc]; simp)
    | str s => exact absurd hcards (by rw [cardsOk, hc]; simp)
    | obj g => exact absurd hcards (by rw [cardsOk, hc]; simp)
  cases hval : (objGet? fields "name").getD Json.null with
  | null =>
    obtain ⟨db2, h1, h2⟩ := hcore (synthName ts) (by rw [hval]; rfl)
    refine ⟨db2, deckMaxId db + 1, h1, hnid,
      ⟨{ id := deckMaxId db + 1, name := synthName ts, created_at := ts }, h2, rfl,
        fun _ => ⟨rfl, synthName_ne_empty ts⟩, ?_⟩⟩
    intro s hs _
    rw [hs] at hval
    exact absurd hval (by simp)
  | str s =>
    by_cases hs : s = ""
    · subst hs
      obtain ⟨db2, h1, h2⟩ := hcore (synthName ts) (by rw [hval]; rfl)
      refine ⟨db2, deckMaxId db + 1, h1, hnid,
        ⟨{ id := deckMaxId db + 1, name := synthName ts, created_at := ts }, h2, rfl,
          fun _ => ⟨rfl, synthName_ne_empty ts⟩, ?_⟩⟩
      intro s2 hs2 hs2ne
      rw [hs2] at hval
      simp only [Option.getD_some, Json.str.injEq] at hval
      exact absurd hval hs2ne
    · obtain ⟨db2, h1, h2⟩ := hcore s (by
        rw [hval]
        have hp : pyTruthy (Json.str s) = true := by simp [pyTruthy, hs]
        rw [hp]
        rfl)
      refine ⟨db2, deckMaxId db + 1, h1, hnid,
        ⟨{ id := deckMaxId db + 1, name := s, created_at := ts }, h2, rfl, ?_, ?_⟩⟩
      · intro hcon
        rcases hcon with hcon | hcon
        · exact absurd hcon (by simp)
        · simp only [Json.str.injEq] at hcon
          exact absurd hcon hs
      · intro s2 hs2 _
        rw [hs2] at hval
        simp only [Option.getD_some, Json.str.injEq] at hval
        rw [hval]
  | bool b => exact absurd hname (by rw [nameOk, hval]; simp)
  | num n => exact absurd hname (by rw [nameOk, hval]; simp)
  | arr items => exact absurd hname (by rw [nameOk, hval]; simp)
  | obj g => exact absurd hname (by rw [nameOk, hval]; simp)

/-- The C8 witness payload fields: the spec's empty-name scenario
`{"cards": [{"front": "a", "back": "b"}]}` (no `name` key). -/
def fieldsW : List (String × Json) :=
  [("cards", Json.arr [Json.obj [("front", Json.str "a"), ("back", Json.str "b")]])]

/-- C8 witness: the empty-name scenario payload is well formed and importing
it into the empty store behaves as `import_name_spec` states. -/
theorem import_name_spec_witness :
    nameOk fieldsW = true ∧ cardsOk fieldsW = true ∧
    (∃ db2 nid,
      import_deck_json emptyDB (ReadJson.parsed (Json.obj fieldsW)) 5 =
        (db2, Except.ok nid) ∧
      (∀ dk ∈ emptyDB.decks, dk.id ≠ nid) ∧
      (∃ dk2 ∈ db2.decks, dk2.id = nid ∧
        (((objGet? fieldsW "name").getD Json.null = Json.null ∨
          (objGet? fieldsW "name").getD Json.null = Json.str "") →
            dk2.name = synthName 5 ∧ dk2.name ≠ "") ∧
        (∀ s, objGet? fieldsW "name" = some (Json.str s) → s ≠ "" → dk2.name = s))) :=
  ⟨rfl, rfl, import_name_spec emptyDB fieldsW 5 rfl rfl⟩

end Quzi
